import Mathlib

/-!
Shallow embedding of `Source/Core/Core/Debugger/PPCDebugInterface.cpp`
(Dolphin's PowerPC debug interface) and of the breakpoint / memcheck
containers it drives, together with proofs about the debugger facade.

External collaborators (execution state, memory accessors, the Gekko
disassembler and the symbol database) are abstracted as an `Env` record of
pure functions, mirroring the collaborator contracts of the design
document: the facade only ever consults them through their results.
-/

namespace PPCDebug

/-- Modelled from the spec: the symbol database hands back, for the symbol
owning an address, a function/non-function kind (the resolution algorithm
itself is an external collaborator; `Common/SymbolDB.h` is not part of this
excerpt). -/
inductive SymbolType where
  | Function
  | Data
deriving DecidableEq

/-- Modelled from the spec: a symbol record exposes a kind and a stable
numeric database index. -/
structure Symbol where
  type : SymbolType
  index : Nat
deriving DecidableEq

/-- The external machine state consulted by the facade.  Fields mirror the
collaborator calls made by `PPCDebugInterface.cpp`:
`isAlive` is `Core::IsRunningAndStarted()`, `paused` is
`Core::GetState() == Core::State::Paused`, `isRAMAddress` is
`PowerPC::HostIsRAMAddress`, `readMem` is `PowerPC::HostRead_U32`,
`readInstruction` is `PowerPC::HostRead_Instruction`, `readARAM` is
`DSP::ReadARAM`, `disasm` is `GekkoDisassembler::Disassemble(op, address)`
and `symbolAt` is `g_symbolDB.GetSymbolFromAddr`. -/
structure Env where
  isAlive : Bool
  paused : Bool
  isRAMAddress : Nat → Bool
  readMem : Nat → Nat
  readInstruction : Nat → Nat
  readARAM : Nat → Nat
  disasm : Nat → Nat → String
  symbolAt : Nat → Option Symbol

/-- Embeds `PPCDebugInterface::IsAlive`, which returns `Core::IsRunningAndStarted()`. -/
def IsAlive (env : Env) : Bool :=
  env.isAlive

/-- The collaborator `PowerPC::HostRead_U32` returns a `u32`; the reduction modulo `2 ^ 32`
embeds the return type's width. -/
def HostRead_U32 (env : Env) (address : Nat) : Nat :=
  env.readMem address % 2 ^ 32

/-- The collaborator `PowerPC::HostRead_Instruction` returns a `u32`. -/
def HostRead_Instruction (env : Env) (address : Nat) : Nat :=
  env.readInstruction address % 2 ^ 32

/-- The collaborator `DSP::ReadARAM` returns a `u8`; the reduction modulo `2 ^ 8` embeds the
return type's width. -/
def ReadARAM (env : Env) (address : Nat) : Nat :=
  env.readARAM address % 2 ^ 8

/-- Embeds `PPCDebugInterface::ReadMemory`: delegates to `PowerPC::HostRead_U32`. -/
def ReadMemory (env : Env) (address : Nat) : Nat :=
  HostRead_U32 env address

/-- Embeds `PPCDebugInterface::ReadExtraMemory`: space 0 is `HostRead_U32`, space 1
packs four ARAM bytes with shifts and bitwise or exactly as the source does,
any other space yields 0. -/
def ReadExtraMemory (env : Env) (memory : Int) (address : Nat) : Nat :=
  match memory with
  | 0 => HostRead_U32 env address
  | 1 =>
    ReadARAM env address <<< 24 ||| ReadARAM env (address + 1) <<< 16 |||
      ReadARAM env (address + 2) <<< 8 ||| ReadARAM env (address + 3)
  | _ => 0

/-- Modelled from the spec: `UGeckoInstruction.OPCD` is the primary opcode
field, the top 6 bits of the 32-bit instruction word
(`Core/PowerPC/Gekko.h` is not part of this excerpt). -/
def OPCD (op : Nat) : Nat :=
  op % 2 ^ 32 / 2 ^ 26

/-- Embeds `PPCDebugInterface::Disassemble`. -/
def Disassemble (env : Env) (address : Nat) : String :=
  if !IsAlive env then ""
  else if env.paused then
    if !env.isRAMAddress address then "(No RAM here)"
    else
      let op := HostRead_Instruction env address
      let text := env.disasm op address
      if OPCD op = 1 then text ++ " (hle)" else text
  else "<unknown>"

/-- One uppercase hexadecimal digit, `0`-`9` then `A`-`F`. -/
def hexDigit (n : Nat) : Char :=
  if n < 10 then Char.ofNat (48 + n) else Char.ofNat (55 + n)

/-- Embeds `StringFromFormat("%08X", x)` for a `u32` value: exactly eight uppercase
hexadecimal digits, most significant first. -/
def hex8 (x : Nat) : String :=
  String.mk ((List.range 8).map fun i => hexDigit (x / 16 ^ (7 - i) % 16))

/-- Embeds `PPCDebugInterface::GetRawMemoryString`. -/
def GetRawMemoryString (env : Env) (memory : Int) (address : Nat) : String :=
  if IsAlive env then
    let is_aram := memory != 0
    if is_aram || env.isRAMAddress address then
      hex8 (ReadExtraMemory env memory address) ++ (if is_aram then " (ARAM)" else "")
    else
      if is_aram then "--ARAM--" else "--------"
  else
    "<unknwn>"

/-- The fixed six-color palette of `PPCDebugInterface::GetColor`. -/
def colors : List Nat :=
  [0xd0FFFF, 0xFFd0d0, 0xd8d8FF, 0xFFd0FF, 0xd0FFd0, 0xFFFFd0]

/-- Embeds `PPCDebugInterface::GetColor`. -/
def GetColor (env : Env) (address : Nat) : Nat :=
  if !IsAlive env then 0xFFFFFF
  else if !env.isRAMAddress address then 0xeeeeee
  else
    match env.symbolAt address with
    | none => 0xFFFFFF
    | some symbol =>
      if symbol.type != SymbolType.Function then 0xEEEEFF
      else colors.get ⟨symbol.index % 6, Nat.mod_lt _ (by decide)⟩

namespace BreakPoints

/-- Modelled from the spec: the breakpoint container
(`Core/PowerPC/BreakPoints.cpp` is not part of this excerpt) is a set of
bare addresses, an address present at most once;
`IsAddressBreakPoint(address)` is membership. -/
def IsAddressBreakPoint (bs : List Nat) (address : Nat) : Bool :=
  bs.contains address

/-- Modelled from the spec: `Add(address)` is idempotent, adding an
already-present address is a no-op. -/
def Add (bs : List Nat) (address : Nat) : List Nat :=
  if IsAddressBreakPoint bs address then bs else address :: bs

/-- Modelled from the spec: `Remove(address)` removes the address, a no-op
if absent. -/
def Remove (bs : List Nat) (address : Nat) : List Nat :=
  bs.filter fun x => x != address

end BreakPoints

/-- Embeds `PPCDebugInterface::ToggleBreakpoint`. -/
def ToggleBreakpoint (bs : List Nat) (address : Nat) : List Nat :=
  if BreakPoints.IsAddressBreakPoint bs address then BreakPoints.Remove bs address
  else BreakPoints.Add bs address

/-- The memcheck record as used by `ToggleMemCheck`: a start/end address
range with read/write/log/break flags (the data model of the design
document). -/
structure TMemCheck where
  start_address : Nat
  end_address : Nat
  is_break_on_read : Bool
  is_break_on_write : Bool
  log_on_hit : Bool
  break_on_hit : Bool
deriving DecidableEq

namespace MemChecks

/-- Modelled from the spec: `GetMemCheck(address, size)` returns the first
record whose `[start_address, end_address]` range overlaps
`[address, address + size)`, or none (`Core/PowerPC/BreakPoints.cpp` is not
part of this excerpt). -/
def GetMemCheck (mcs : List TMemCheck) (address : Nat) (size : Nat) : Option TMemCheck :=
  mcs.find? fun mc =>
    decide (mc.start_address < address + size ∧ address ≤ mc.end_address)

/-- Modelled from the spec: `Add(memcheck)` appends; no merging of
overlapping ranges. -/
def Add (mcs : List TMemCheck) (mc : TMemCheck) : List TMemCheck :=
  mcs ++ [mc]

/-- Modelled from the spec: `Remove(address)` removes the first record whose
range contains the address, not all overlapping records; a no-op if none. -/
def Remove (mcs : List TMemCheck) (address : Nat) : List TMemCheck :=
  List.eraseP
    (fun mc => decide (mc.start_address ≤ address ∧ address ≤ mc.end_address)) mcs

end MemChecks

/-- Embeds `PPCDebugInterface::IsMemCheck`: `GetMemCheck(address, size) != nullptr`. -/
def IsMemCheck (mcs : List TMemCheck) (address : Nat) (size : Nat) : Bool :=
  (MemChecks.GetMemCheck mcs address size).isSome

/-- Embeds `PPCDebugInterface::ToggleMemCheck`; the call `IsMemCheck(address)` uses
the header's default size of 1. -/
def ToggleMemCheck (mcs : List TMemCheck) (address : Nat)
    (read write log : Bool) : List TMemCheck :=
  if !IsMemCheck mcs address 1 then
    MemChecks.Add mcs
      { start_address := address
        end_address := address
        is_break_on_read := read
        is_break_on_write := write
        log_on_hit := log
        break_on_hit := true }
  else
    MemChecks.Remove mcs address

/-! ## Breakpoint toggling -/

/-- The predicate `IsAddressBreakPoint` decides list membership. -/
theorem isAddressBreakPoint_eq (bs : List Nat) (y : Nat) :
    BreakPoints.IsAddressBreakPoint bs y = decide (y ∈ bs) := by
  simp [BreakPoints.IsAddressBreakPoint, List.contains]

/-- Membership after a single `ToggleBreakpoint`: the toggled address flips,
every other address keeps its membership. -/
theorem mem_toggleBreakpoint (bs : List Nat) (a x : Nat) :
    x ∈ ToggleBreakpoint bs a ↔ (x ∈ bs ∧ x ≠ a) ∨ (x = a ∧ a ∉ bs) := by
  unfold ToggleBreakpoint BreakPoints.Add
  rw [isAddressBreakPoint_eq]
  by_cases h : a ∈ bs
  · rw [if_pos (by simp [h])]
    simp only [BreakPoints.Remove, List.mem_filter, bne_iff_ne, ne_eq]
    constructor
    · exact fun hx => Or.inl hx
    · rintro (hx | ⟨rfl, h2⟩)
      · exact hx
      · exact absurd h h2
  · rw [if_neg (by simp [h]), if_neg (by simp [h])]
    simp only [List.mem_cons]
    constructor
    · rintro (rfl | hx)
      · exact Or.inr ⟨rfl, h⟩
      · by_cases hxa : x = a
        · exact Or.inr ⟨hxa, h⟩
        · exact Or.inl ⟨hx, hxa⟩
    · rintro (⟨h1, h2⟩ | ⟨rfl, h2⟩)
      · exact Or.inr h1
      · exact Or.inl rfl

/-- C1: toggling a breakpoint at `a` flips the membership of `a` (remove if
present, add if absent), leaves every other address unchanged, and toggling
twice restores the original membership state of the set at every address. -/
theorem C1_toggleBreakpoint_involution (bs : List Nat) (a x : Nat) :
    (BreakPoints.IsAddressBreakPoint (ToggleBreakpoint bs a) a
        = !BreakPoints.IsAddressBreakPoint bs a)
    ∧ (x ≠ a →
        BreakPoints.IsAddressBreakPoint (ToggleBreakpoint bs a) x
          = BreakPoints.IsAddressBreakPoint bs x)
    ∧ BreakPoints.IsAddressBreakPoint (ToggleBreakpoint (ToggleBreakpoint bs a) a) x
        = BreakPoints.IsAddressBreakPoint bs x := by
  refine ⟨?_, fun hxa => ?_, ?_⟩
  · rw [isAddressBreakPoint_eq, isAddressBreakPoint_eq]
    by_cases h : a ∈ bs <;> simp [mem_toggleBreakpoint, h]
  · rw [isAddressBreakPoint_eq, isAddressBreakPoint_eq]
    by_cases h : x ∈ bs <;> simp [mem_toggleBreakpoint, h, hxa]
  · rw [isAddressBreakPoint_eq, isAddressBreakPoint_eq]
    by_cases hxa : x = a
    · subst hxa
      by_cases h : x ∈ bs <;> simp [mem_toggleBreakpoint, h]
    · by_cases h : x ∈ bs <;> simp [mem_toggleBreakpoint, h, hxa]

/-- C1 witness: the involution evaluated on a concrete set and addresses. -/
theorem C1_toggleBreakpoint_involution_witness :
    ((3 : Nat) ≠ 5
      ∧ BreakPoints.IsAddressBreakPoint (ToggleBreakpoint [5, 3] 5) 3
          = BreakPoints.IsAddressBreakPoint [5, 3] 3)
    ∧ BreakPoints.IsAddressBreakPoint (ToggleBreakpoint (ToggleBreakpoint [5, 3] 5) 5) 3
        = BreakPoints.IsAddressBreakPoint [5, 3] 3 :=
  ⟨⟨by decide, (C1_toggleBreakpoint_involution [5, 3] 5 3).2.1 (by decide)⟩,
    (C1_toggleBreakpoint_involution [5, 3] 5 3).2.2⟩

/-! ## Memcheck toggling -/

/-- When no record overlaps the single toggled address, `ToggleMemCheck`
appends the new single-address record. -/
theorem toggleMemCheck_not_hit (mcs : List TMemCheck) (a : Nat) (r w l : Bool)
    (h : MemChecks.GetMemCheck mcs a 1 = none) :
    ToggleMemCheck mcs a r w l = mcs ++ [⟨a, a, r, w, l, true⟩] := by
  simp [ToggleMemCheck, IsMemCheck, h, MemChecks.Add]

/-- When some record overlaps the toggled address, `ToggleMemCheck` removes
the first containing record and ignores the passed flags. -/
theorem toggleMemCheck_hit (mcs : List TMemCheck) (a : Nat) (r w l : Bool)
    (h : MemChecks.GetMemCheck mcs a 1 ≠ none) :
    ToggleMemCheck mcs a r w l = MemChecks.Remove mcs a := by
  have hs : IsMemCheck mcs a 1 = true := by
    simp [IsMemCheck, Option.isSome_iff_ne_none, h]
  simp [ToggleMemCheck, hs]

/-- C2 counterexample: starting from a set whose only record covers addresses
0 through 10, toggling address 5 twice does not restore the original set:
the covering record is removed and replaced by a fresh single-address. -/
theorem C2_toggleMemCheck_counterexample :
    ToggleMemCheck
        (ToggleMemCheck [(⟨0, 10, true, true, true, true⟩ : TMemCheck)] 5 false false false)
        5 false false false
      ≠ [(⟨0, 10, true, true, true, true⟩ : TMemCheck)] := by
  decide

/-- C2 (amended): when no memcheck covers `a`, toggling twice restores the
original memcheck set exactly and the second call's flags are irrelevant;
when a memcheck covering `a` exists, `ToggleMemCheck` removes the first
containing record and the passed flags have no effect on the result.  (The
unrestricted double-toggle claim fails when a covering record exists.) -/
theorem C2_toggleMemCheck_amended (mcs : List TMemCheck) (a : Nat)
    (r w l r' w' l' : Bool) :
    (MemChecks.GetMemCheck mcs a 1 = none →
        ToggleMemCheck (ToggleMemCheck mcs a r w l) a r' w' l' = mcs)
    ∧ (MemChecks.GetMemCheck mcs a 1 ≠ none →
        ToggleMemCheck mcs a r w l = MemChecks.Remove mcs a
          ∧ ToggleMemCheck mcs a r w l = ToggleMemCheck mcs a r' w' l') := by
  constructor
  · intro h
    have hall : ∀ mc ∈ mcs,
        ¬ (mc.start_address < a + 1 ∧ a ≤ mc.end_address) := by
      rw [MemChecks.GetMemCheck, List.find?_eq_none] at h
      intro mc hmc
      simpa using h mc hmc
    rw [toggleMemCheck_not_hit mcs a r w l h]
    have hget : MemChecks.GetMemCheck
        (mcs ++ [(⟨a, a, r, w, l, true⟩ : TMemCheck)]) a 1 ≠ none := by
      rw [MemChecks.GetMemCheck, List.find?_append]
      rw [MemChecks.GetMemCheck] at h
      rw [h]
      simp
    rw [toggleMemCheck_hit _ a r' w' l' hget, MemChecks.Remove,
      List.eraseP_append_right]
    · rw [List.eraseP_cons_of_pos (by simp)]
      simp
    · intro b hb
      have hovl := hall b hb
      simp only [decide_eq_true_eq]
      omega
  · intro h
    refine ⟨toggleMemCheck_hit mcs a r w l h, ?_⟩
    rw [toggleMemCheck_hit mcs a r w l h, toggleMemCheck_hit mcs a r' w' l' h]

/-- C2 witness: the amended double-toggle identity evaluated on the empty
set at address 7 with differing flag triples. -/
theorem C2_toggleMemCheck_amended_witness :
    MemChecks.GetMemCheck [] 7 1 = none
    ∧ ToggleMemCheck (ToggleMemCheck [] 7 true false true) 7 false true false = [] :=
  ⟨rfl, (C2_toggleMemCheck_amended [] 7 true false true false true false).1 rfl⟩

/-- C3: when no existing memcheck covers the address, `ToggleMemCheck` adds
exactly one new record, appended to the set, with
`start_address == end_address == address`, the given read/write/log flags
and `break_on_hit` always true. -/
theorem C3_toggleMemCheck_adds (mcs : List TMemCheck) (a : Nat) (r w l : Bool)
    (h : MemChecks.GetMemCheck mcs a 1 = none) :
    ToggleMemCheck mcs a r w l
      = mcs ++ [{ start_address := a
                  end_address := a
                  is_break_on_read := r
                  is_break_on_write := w
                  log_on_hit := l
                  break_on_hit := true }] :=
  toggleMemCheck_not_hit mcs a r w l h

/-- C3 witness: adding a memcheck at address 5 to the empty set. -/
theorem C3_toggleMemCheck_adds_witness :
    MemChecks.GetMemCheck [] 5 1 = none
    ∧ ToggleMemCheck [] 5 true false true
        = [{ start_address := 5
             end_address := 5
             is_break_on_read := true
             is_break_on_write := false
             log_on_hit := true
             break_on_hit := true }] :=
  ⟨rfl, C3_toggleMemCheck_adds [] 5 true false true rfl⟩

/-! ## Concrete environments for closed evaluations -/

/-- A concrete environment builder: memory reads return 0, the remaining
collaborators are the given functions. -/
def mkEnv (alive pa : Bool) (ram : Nat → Bool) (instr : Nat → Nat)
    (dis : Nat → Nat → String) (sym : Nat → Option Symbol) : Env :=
  { isAlive := alive
    paused := pa
    isRAMAddress := ram
    readMem := fun _ => 0
    readInstruction := instr
    readARAM := fun _ => 0
    disasm := dis
    symbolAt := sym }

/-- A machine that is not alive. -/
def envDead : Env :=
  mkEnv false false (fun _ => true) (fun _ => 0) (fun _ _ => "") (fun _ => none)

/-- An alive, paused machine whose addresses are all invalid RAM. -/
def envNoRam : Env :=
  mkEnv true true (fun _ => false) (fun _ => 0) (fun _ _ => "") (fun _ => none)

/-- An alive machine that is not paused; all addresses valid, no symbols. -/
def envRunning : Env :=
  mkEnv true false (fun _ => true) (fun _ => 0) (fun _ _ => "") (fun _ => none)

/-! ## Disassembly -/

/-- C4: `Disassemble` returns the empty string when the machine is not
alive; when alive and paused at a non-RAM address it returns the literal
"(No RAM here)"; when alive but not paused it returns the literal
"<unknown>" whatever the memory collaborators hold. -/
theorem C4_disassemble_sentinels (env : Env) (a : Nat) :
    (env.isAlive = false → Disassemble env a = "")
    ∧ (env.isAlive = true → env.paused = true → env.isRAMAddress a = false →
        Disassemble env a = "(No RAM here)")
    ∧ (env.isAlive = true → env.paused = false → Disassemble env a = "<unknown>") := by
  refine ⟨fun h1 => ?_, fun h1 h2 h3 => ?_, fun h1 h2 => ?_⟩
  · simp [Disassemble, IsAlive, h1]
  · simp [Disassemble, IsAlive, h1, h2, h3]
  · simp [Disassemble, IsAlive, h1, h2]

/-- C4 witness: the three sentinel cases evaluated on concrete machines. -/
theorem C4_disassemble_sentinels_witness :
    Disassemble envDead 0x80001000 = ""
    ∧ Disassemble envNoRam 0x80001000 = "(No RAM here)"
    ∧ Disassemble envRunning 0x80001000 = "<unknown>" :=
  ⟨(C4_disassemble_sentinels envDead 0x80001000).1 rfl,
    (C4_disassemble_sentinels envNoRam 0x80001000).2.1 rfl rfl rfl,
    (C4_disassemble_sentinels envRunning 0x80001000).2.2 rfl rfl⟩

/-- An alive, paused machine whose external disassembler text itself ends in
" (hle)", while the fetched instruction word is 0 (primary opcode 0). -/
def envFakeHle : Env :=
  mkEnv true true (fun _ => true) (fun _ => 0) (fun _ _ => "fake (hle)") (fun _ => none)

/-- C5 counterexample: the result can end in " (hle)" although the primary
opcode field of the fetched word is not 1, because with another opcode the
result is the external disassembler's text unchanged — and nothing stops
that text from ending in " (hle)" itself.  The claimed equivalence fails in
the only-if direction. -/
theorem C5_hle_counterexample :
    (∃ t, Disassemble envFakeHle 0 = t ++ " (hle)")
    ∧ OPCD (HostRead_Instruction envFakeHle 0) ≠ 1 :=
  ⟨⟨"fake", by decide⟩, by decide⟩

/-- C5 (amended): when alive and paused at a valid RAM address,
`Disassemble` returns the external disassembler's text with the literal
" (hle)" appended when the primary opcode field (top 6 bits) of the fetched
instruction word is 1, and exactly the external text with no suffix
appended otherwise (so the result ends in " (hle)" only when the opcode is
1 or that text already ends that way). -/
theorem C5_hle_suffix (env : Env) (a : Nat)
    (h1 : env.isAlive = true) (h2 : env.paused = true)
    (h3 : env.isRAMAddress a = true) :
    (OPCD (HostRead_Instruction env a) = 1 →
        Disassemble env a = env.disasm (HostRead_Instruction env a) a ++ " (hle)")
    ∧ (OPCD (HostRead_Instruction env a) ≠ 1 →
        Disassemble env a = env.disasm (HostRead_Instruction env a) a) := by
  constructor <;> intro hop <;> simp [Disassemble, IsAlive, h1, h2, h3, hop]

/-- An alive, paused machine fetching an instruction word whose primary
opcode field is 1 (word 0x04000000). -/
def envHle : Env :=
  mkEnv true true (fun _ => true) (fun _ => 0x04000000) (fun _ _ => "call") (fun _ => none)

/-- C5 witness: the amended suffix rule evaluated on a concrete machine
whose fetched word has primary opcode 1. -/
theorem C5_hle_suffix_witness :
    Disassemble envHle 0 = envHle.disasm (HostRead_Instruction envHle 0) 0 ++ " (hle)" :=
  (C5_hle_suffix envHle 0 rfl rfl rfl).1 (by decide)

/-! ## Raw memory strings -/

/-- The renderer `hex8` always produces exactly eight characters. -/
theorem hex8_length (x : Nat) : (hex8 x).length = 8 :=
  rfl

/-- C6 counterexample: on an alive machine, an invalid address with a
secondary memory space does not yield "--ARAM--": the secondary space
bypasses the RAM-validity check and the bytes are formatted instead. -/
theorem C6_rawMemoryString_counterexample :
    GetRawMemoryString envNoRam 1 0 ≠ "--ARAM--"
    ∧ GetRawMemoryString envNoRam 1 0 = "00000000 (ARAM)" := by
  constructor <;> decide

/-- C6 (amended): `GetRawMemoryString` returns "<unknwn>" when not alive;
when alive with the primary space (0) it returns "--------" for an invalid
address and the eight uppercase hex digits of `ReadExtraMemory` for a valid
one; when alive with a secondary space (nonzero) the validity check is
bypassed and it always returns the eight hex digits with " (ARAM)"
appended — in particular the "--ARAM--" literal is never returned on an
alive machine with a secondary space. -/
theorem C6_rawMemoryString (env : Env) (m : Int) (a : Nat) :
    (env.isAlive = false → GetRawMemoryString env m a = "<unknwn>")
    ∧ (env.isAlive = true → m = 0 → env.isRAMAddress a = false →
        GetRawMemoryString env m a = "--------")
    ∧ (env.isAlive = true → m = 0 → env.isRAMAddress a = true →
        GetRawMemoryString env m a = hex8 (ReadExtraMemory env 0 a))
    ∧ (env.isAlive = true → m ≠ 0 →
        GetRawMemoryString env m a = hex8 (ReadExtraMemory env m a) ++ " (ARAM)")
    ∧ (env.isAlive = true → m ≠ 0 → GetRawMemoryString env m a ≠ "--ARAM--") := by
  refine ⟨fun h1 => ?_, fun h1 h2 h3 => ?_, fun h1 h2 h3 => ?_,
    fun h1 h2 => ?_, fun h1 h2 => ?_⟩
  · simp [GetRawMemoryString, IsAlive, h1]
  · subst h2
    simp [GetRawMemoryString, IsAlive, h1, h3]
  · subst h2
    simp [GetRawMemoryString, IsAlive, h1, h3]
  · have hb : (m != 0) = true := by simpa [bne_iff_ne] using h2
    simp [GetRawMemoryString, IsAlive, h1, hb]
  · have hb : (m != 0) = true := by simpa [bne_iff_ne] using h2
    have hv : GetRawMemoryString env m a
        = hex8 (ReadExtraMemory env m a) ++ " (ARAM)" := by
      simp [GetRawMemoryString, IsAlive, h1, hb]
    rw [hv]
    intro heq
    have hlen := congrArg String.length heq
    rw [String.length_append, hex8_length] at hlen
    exact absurd hlen (by decide)

/-- C6 witness: the amended description evaluated on concrete machines. -/
theorem C6_rawMemoryString_witness :
    GetRawMemoryString envDead 0 16 = "<unknwn>"
    ∧ GetRawMemoryString envNoRam 0 16 = "--------"
    ∧ GetRawMemoryString envRunning 0 16 = hex8 (ReadExtraMemory envRunning 0 16)
    ∧ GetRawMemoryString envNoRam 1 16
        = hex8 (ReadExtraMemory envNoRam 1 16) ++ " (ARAM)"
    ∧ GetRawMemoryString envNoRam 1 16 ≠ "--ARAM--" :=
  ⟨(C6_rawMemoryString envDead 0 16).1 rfl,
    (C6_rawMemoryString envNoRam 0 16).2.1 rfl rfl rfl,
    (C6_rawMemoryString envRunning 0 16).2.2.1 rfl rfl rfl,
    (C6_rawMemoryString envNoRam 1 16).2.2.2.1 rfl (by decide),
    (C6_rawMemoryString envNoRam 1 16).2.2.2.2 rfl (by decide)⟩

/-- C10: for an alive machine and any memory-space selector other than 0
and 1, `GetRawMemoryString` returns exactly "00000000 (ARAM)" for every
address, valid or not: the nonzero space is treated as secondary, so the
RAM-validity check is skipped, and `ReadExtraMemory` yields 0 for the
unrecognized space. -/
theorem C10_rawMemoryString_unknownSpace (env : Env) (m : Int) (a : Nat)
    (h1 : env.isAlive = true) (h2 : m ≠ 0) (h3 : m ≠ 1) :
    GetRawMemoryString env m a = "00000000 (ARAM)" := by
  have hb : (m != 0) = true := by simpa [bne_iff_ne] using h2
  have hext : ReadExtraMemory env m a = 0 := by
    unfold ReadExtraMemory
    split
    · simp_all
    · simp_all
    · rfl
  calc GetRawMemoryString env m a
      = hex8 0 ++ " (ARAM)" := by simp [GetRawMemoryString, IsAlive, h1, hb, hext]
    _ = "00000000 (ARAM)" := by decide

/-- C10 witness: space 2 on an alive machine at a valid address. -/
theorem C10_rawMemoryString_unknownSpace_witness :
    GetRawMemoryString envRunning 2 0x80001000 = "00000000 (ARAM)" :=
  C10_rawMemoryString_unknownSpace envRunning 2 0x80001000 rfl (by decide) (by decide)

/-! ## ReadExtraMemory -/

/-- Bitwise-or of a multiple of `2 ^ k` with a value below `2 ^ k` is
addition, since the bit ranges are disjoint. -/
theorem mul_pow_or_eq_add (a b k : Nat) (hb : b < 2 ^ k) :
    a * 2 ^ k ||| b = a * 2 ^ k + b := by
  rw [Nat.mul_comm]
  exact (Nat.mul_add_lt_is_or hb a).symm

/-- The source's shift-and-or packing of four bytes equals the big-endian
weighted sum. -/
theorem pack_bytes_eq (b0 b1 b2 b3 : Nat)
    (h0 : b0 < 256) (h1 : b1 < 256) (h2 : b2 < 256) (h3 : b3 < 256) :
    b0 <<< 24 ||| b1 <<< 16 ||| b2 <<< 8 ||| b3
      = b0 * 2 ^ 24 + b1 * 2 ^ 16 + b2 * 2 ^ 8 + b3 := by
  simp only [Nat.shiftLeft_eq]
  rw [mul_pow_or_eq_add b0 (b1 * 2 ^ 16) 24 (by norm_num <;> omega)]
  rw [show b0 * 2 ^ 24 + b1 * 2 ^ 16 = (b0 * 2 ^ 8 + b1) * 2 ^ 16 from by ring]
  rw [mul_pow_or_eq_add (b0 * 2 ^ 8 + b1) (b2 * 2 ^ 8) 16 (by norm_num <;> omega)]
  rw [show (b0 * 2 ^ 8 + b1) * 2 ^ 16 + b2 * 2 ^ 8
      = (b0 * 2 ^ 16 + b1 * 2 ^ 8 + b2) * 2 ^ 8 from by ring]
  rw [mul_pow_or_eq_add (b0 * 2 ^ 16 + b1 * 2 ^ 8 + b2) b3 8 (by norm_num <;> omega)]

/-- C7: `ReadExtraMemory` with space 0 is exactly `ReadMemory`; with space 1
it packs the four ARAM bytes at address, address+1, address+2, address+3
big-endian, the byte at the lowest address being most significant; any
other space yields 0. -/
theorem C7_readExtraMemory (env : Env) (m : Int) (a : Nat) :
    (m = 0 → ReadExtraMemory env m a = ReadMemory env a)
    ∧ ReadExtraMemory env 1 a
        = ReadARAM env a * 2 ^ 24 + ReadARAM env (a + 1) * 2 ^ 16
            + ReadARAM env (a + 2) * 2 ^ 8 + ReadARAM env (a + 3)
    ∧ (m ≠ 0 → m ≠ 1 → ReadExtraMemory env m a = 0) := by
  refine ⟨fun h => ?_, ?_, fun h0 h1 => ?_⟩
  · subst h
    rfl
  · exact pack_bytes_eq _ _ _ _ (Nat.mod_lt _ (by decide)) (Nat.mod_lt _ (by decide))
      (Nat.mod_lt _ (by decide)) (Nat.mod_lt _ (by decide))
  · unfold ReadExtraMemory
    split
    · simp_all
    · simp_all
    · rfl

/-- An alive machine whose ARAM bytes vary with the address. -/
def envBytes : Env :=
  { isAlive := true
    paused := true
    isRAMAddress := fun _ => true
    readMem := fun a => a + 3
    readInstruction := fun _ => 0
    readARAM := fun i => 16 + i
    disasm := fun _ _ => ""
    symbolAt := fun _ => none }

/-- C7 witness: the three space behaviors evaluated on a concrete machine. -/
theorem C7_readExtraMemory_witness :
    ReadExtraMemory envBytes 0 8 = ReadMemory envBytes 8
    ∧ ReadExtraMemory envBytes 1 8
        = ReadARAM envBytes 8 * 2 ^ 24 + ReadARAM envBytes 9 * 2 ^ 16
            + ReadARAM envBytes 10 * 2 ^ 8 + ReadARAM envBytes 11
    ∧ ReadExtraMemory envBytes 5 8 = 0 :=
  ⟨(C7_readExtraMemory envBytes 0 8).1 rfl,
    (C7_readExtraMemory envBytes 1 8).2.1,
    (C7_readExtraMemory envBytes 5 8).2.2 (by decide) (by decide)⟩

/-! ## Color assignment -/

/-- On an alive machine at a valid RAM address owned by a function symbol,
`GetColor` selects the palette entry at the symbol's index modulo 6. -/
theorem getColor_function_symbol (e : Env) (x : Nat) (t : Symbol)
    (k1 : e.isAlive = true) (k2 : e.isRAMAddress x = true)
    (k3 : e.symbolAt x = some t) (k4 : t.type = SymbolType.Function) :
    GetColor e x = colors.get ⟨t.index % 6, Nat.mod_lt _ (by decide)⟩ := by
  simp [GetColor, IsAlive, k1, k2, k3, k4]

/-- C8: `GetColor` depends only on the liveness flag, the RAM validity and
the symbol-lookup result; a function symbol is rendered with the palette
color at position index mod 6, so any two function symbols whose indices
agree modulo 6 — wherever and on whichever machine they live — receive
identical colors. -/
theorem C8_getColor_palette (env env2 : Env) (a a2 : Nat) (s s2 : Symbol)
    (h1 : env.isAlive = true) (h2 : env.isRAMAddress a = true)
    (h3 : env.symbolAt a = some s) (h4 : s.type = SymbolType.Function)
    (g1 : env2.isAlive = true) (g2 : env2.isRAMAddress a2 = true)
    (g3 : env2.symbolAt a2 = some s2) (g4 : s2.type = SymbolType.Function)
    (hmod : s.index % 6 = s2.index % 6) :
    GetColor env a = colors.get ⟨s.index % 6, Nat.mod_lt _ (by decide)⟩
    ∧ GetColor env a = GetColor env2 a2 := by
  refine ⟨getColor_function_symbol env a s h1 h2 h3 h4, ?_⟩
  rw [getColor_function_symbol env a s h1 h2 h3 h4,
    getColor_function_symbol env2 a2 s2 g1 g2 g3 g4]
  congr 1
  exact Fin.ext hmod

/-- An alive machine with a function symbol of index 3 at address 0 and one
of index 9 everywhere else. -/
def envTwoSyms : Env :=
  mkEnv true true (fun _ => true) (fun _ => 0) (fun _ _ => "")
    (fun x => if x = 0 then some ⟨SymbolType.Function, 3⟩
      else some ⟨SymbolType.Function, 9⟩)

/-- C8 witness: function symbols with indices 3 and 9 render identically. -/
theorem C8_getColor_palette_witness :
    GetColor envTwoSyms 0 = colors.get ⟨3 % 6, Nat.mod_lt _ (by decide)⟩
    ∧ GetColor envTwoSyms 0 = GetColor envTwoSyms 1 :=
  C8_getColor_palette envTwoSyms envTwoSyms 0 1 ⟨SymbolType.Function, 3⟩
    ⟨SymbolType.Function, 9⟩ rfl rfl rfl rfl rfl rfl rfl rfl (by decide)

/-- C9 counterexample: the "unknown" color of a machine that is not alive
and the no-symbol color of an alive machine coincide — both are 0xFFFFFF —
so the four non-palette colors are not pairwise distinct. -/
theorem C9_neutralColors_counterexample :
    GetColor envDead 0 = GetColor envRunning 0
    ∧ GetColor envDead 0 = 0xFFFFFF := by
  constructor <;> decide

/-- C9 (amended): of the four non-palette colors, the not-alive case and
the no-symbol case share the same neutral color 0xFFFFFF, while the
invalid-address color 0xEEEEEE and the non-function-symbol color 0xEEEEFF
are distinct from each other and from 0xFFFFFF: the four cases yield
exactly three distinguishable color values. -/
theorem C9_neutralColors (e1 e2 e3 e4 : Env) (a1 a2 a3 a4 : Nat) (s : Symbol)
    (h1 : e1.isAlive = false)
    (h2a : e2.isAlive = true) (h2b : e2.isRAMAddress a2 = false)
    (h3a : e3.isAlive = true) (h3b : e3.isRAMAddress a3 = true)
    (h3c : e3.symbolAt a3 = none)
    (h4a : e4.isAlive = true) (h4b : e4.isRAMAddress a4 = true)
    (h4c : e4.symbolAt a4 = some s) (h4d : s.type ≠ SymbolType.Function) :
    GetColor e1 a1 = GetColor e3 a3
    ∧ GetColor e2 a2 ≠ GetColor e1 a1
    ∧ GetColor e2 a2 ≠ GetColor e4 a4
    ∧ GetColor e4 a4 ≠ GetColor e1 a1 := by
  have v1 : GetColor e1 a1 = 0xFFFFFF := by
    simp [GetColor, IsAlive, h1]
  have v2 : GetColor e2 a2 = 0xeeeeee := by
    simp [GetColor, IsAlive, h2a, h2b]
  have v3 : GetColor e3 a3 = 0xFFFFFF := by
    simp [GetColor, IsAlive, h3a, h3b, h3c]
  have v4 : GetColor e4 a4 = 0xEEEEFF := by
    have hb : (s.type != SymbolType.Function) = true := by
      simpa [bne_iff_ne] using h4d
    simp [GetColor, IsAlive, h4a, h4b, h4c, hb]
  rw [v1, v2, v3, v4]
  exact ⟨rfl, by decide, by decide, by decide⟩

/-- An alive machine whose symbol database owns every address with a
non-function (data) symbol. -/
def envDataSym : Env :=
  mkEnv true true (fun _ => true) (fun _ => 0) (fun _ _ => "")
    (fun _ => some ⟨SymbolType.Data, 0⟩)

/-- C9 witness: the three distinguishable neutral colors evaluated on
concrete machines for the four cases. -/
theorem C9_neutralColors_witness :
    GetColor envDead 0 = GetColor envRunning 0
    ∧ GetColor envNoRam 0 ≠ GetColor envDead 0
    ∧ GetColor envNoRam 0 ≠ GetColor envDataSym 0
    ∧ GetColor envDataSym 0 ≠ GetColor envDead 0 :=
  C9_neutralColors envDead envNoRam envRunning envDataSym 0 0 0 0
    ⟨SymbolType.Data, 0⟩ rfl rfl rfl rfl rfl rfl rfl rfl rfl (by decide)

end PPCDebug
